import Mathlib

/-!
Verification of the Open Manufacturing Model (OMM) reference core, as documented
in this repository.  The repository ships API documentation (class attribute
tables, constructor and method signatures, and docstrings) for the `omm`
Python reference implementation; the method bodies themselves are not part of
the repository.  Every operation below is therefore a shallow embedding built
from the documented signatures, attribute tables and docstrings, with the
behavioural gaps filled in from the specification; each such definition carries
a doc comment saying exactly what was modelled from where.

Conventions of the embedding:
- Python `float` attributes that carry exact volumes, capacities, durations and
  percentages are modelled as rationals.
- Python dictionaries are modelled as association lists (`List (String × _)`).
- A method that can raise is modelled as returning `Except OMMError _`; the
  error constructors follow the specification's error taxonomy, which maps the
  Python exceptions named in the docstrings (`ValueError`, `KeyError`,
  `TypeError`) to `ValidationError` / `CapacityExceeded`, `NotFound`, and so on.
- Timestamps are opaque integers supplied by the caller.
-/

namespace OMM

/-- Error taxonomy of the specification: `ValidationError` (malformed
arguments, the docs' `ValueError`/`TypeError`), `NotFound` (unknown id, the
docs' `KeyError`), `InvalidTransition` (disallowed state-machine move),
`CapacityExceeded` (allocation or storage would exceed a bound, the docs'
capacity `ValueError`), `IncompleteActions` (completing a Job with unfinished
Actions). -/
inductive OMMError where
  | ValidationError
  | NotFound
  | InvalidTransition
  | CapacityExceeded
  | IncompleteActions
deriving DecidableEq, Repr

/-- StorageType enumeration, from the documented value table. -/
inductive StorageType where
  | GENERAL
  | WAREHOUSE
  | RACK
  | BUFFER
  | QUEUE
deriving DecidableEq, Repr

/-- LocationType enumeration, from the documented value table. -/
inductive LocationType where
  | INTERNAL
  | EXTERNAL
deriving DecidableEq, Repr

/-- ProductionState enumeration, from the documented value table. -/
inductive ProductionState where
  | RAW
  | NEW
  | WORK_IN_PROGRESS
  | FINISHED
  | DEFECTIVE
  | ON_HOLD
deriving DecidableEq, Repr

/-- PartType enumeration, from the documented value table. -/
inductive PartType where
  | RAW_MATERIAL
  | PURCHASED_COMPONENT
  | WORK_IN_PROGRESS
deriving DecidableEq, Repr

/-- ResourceType enumeration, from the documented value table. -/
inductive ResourceType where
  | GENERAL
  | MACHINE
  | WORKSTATION
  | CONVEYOR
  | ROBOTIC_ARM
  | VEHICLE
  | TOOL
deriving DecidableEq, Repr

/-- ResourceStatus enumeration, from the documented value table. -/
inductive ResourceStatus where
  | IDLE
  | WAIT
  | LOAD
  | UNLOAD
  | WORKING
  | FAILED
  | CHARGING
deriving DecidableEq, Repr

/-- ActionStatus enumeration, from the documented value table. -/
inductive ActionStatus where
  | DRAFT
  | REQUESTED
  | CONFIRMED
  | IN_PROGRESS
  | COMPLETED
  | CANCELLED
deriving DecidableEq, Repr

/-- JobStatus enumeration, from the documented value table. -/
inductive JobStatus where
  | PLANNED
  | IN_PROGRESS
  | ON_HOLD
  | COMPLETED
  | CANCELLED
deriving DecidableEq, Repr

/-- JobPriority enumeration, from the documented value table. -/
inductive JobPriority where
  | LOW
  | MEDIUM
  | HIGH
  | URGENT
deriving DecidableEq, Repr

/-- ActionType enumeration, from the documented value table. -/
inductive ActionType where
  | STOP
  | LOAD
  | UNLOAD
  | MOVE
  | ATTACH
  | DETACH
  | BREAK
  | WAIT
  | PROCESS
  | ASSEMBLY
  | MACHINING
  | QUALITY_CHECK
  | PACKAGING
  | STORAGE
  | SETUP
  | CLEAN
  | INSPECT
  | REPAIR
  | MAINTENANCE
deriving DecidableEq, Repr

/-- RequirementType enumeration, from the documented value table (the `CONVEYER`
spelling follows the docs). -/
inductive RequirementType where
  | MACHINE
  | WORKSTATION
  | CONVEYER
  | ROBOTIC_ARM
  | VEHICLE
  | PART
  | PRODUCT
  | WORKER
  | TOOL
deriving DecidableEq, Repr

/-- Lookup in a Python-dict modelled as an association list (first match). -/
def alookup {α : Type} : List (String × α) → String → Option α
  | [], _ => none
  | (k, v) :: rest, key => if k = key then some v else alookup rest key

/-- Deletion from a Python-dict modelled as an association list (first match). -/
def aerase {α : Type} : List (String × α) → String → List (String × α)
  | [], _ => []
  | (k, v) :: rest, key => if k = key then rest else (k, v) :: aerase rest key

/-- Part entity: the documented attribute table (name, quantity, volume, state,
part_type, cost, min_stock_level, id; the supplier reference and timestamps are
not invariant-relevant and are omitted). `volume` is the documented physical
volume of one unit. -/
structure Part where
  name : String
  quantity : Int
  volume : ℚ
  state : ProductionState
  part_type : PartType
  cost : ℚ
  min_stock_level : Int
  id : String
deriving DecidableEq, Repr

/-- Modelled from the spec: the Part constructor body is not in the repository;
the specification's lifecycle section says constructors validate non-negative
quantities and capacities, so a negative quantity, volume, cost or minimum
stock level is rejected with `ValidationError`. -/
def Part.make (name : String) (quantity : Int) (volume : ℚ) (state : ProductionState)
    (part_type : PartType) (cost : ℚ) (min_stock_level : Int) (id : String) :
    Except OMMError Part :=
  if quantity < 0 ∨ volume < 0 ∨ cost < 0 ∨ min_stock_level < 0 then
    .error .ValidationError
  else
    .ok ⟨name, quantity, volume, state, part_type, cost, min_stock_level, id⟩

/-- Modelled from the spec: the body of `Part.adjust_quantity` is not in the
repository; its docstring says it adjusts the quantity by the given amount and
raises `ValueError` (taxonomy: `ValidationError`) if the resulting quantity
would be negative. -/
def Part.adjust_quantity (p : Part) (amount : Int) : Except OMMError Part :=
  if p.quantity + amount < 0 then .error .ValidationError
  else .ok { p with quantity := p.quantity + amount }

/-- Modelled from the spec: `Part.is_below_min_stock` compares the quantity to
the minimum stock level, per its docstring. -/
def Part.is_below_min_stock (p : Part) : Bool :=
  p.quantity < p.min_stock_level

/-- Modelled from the spec: `Part.calculate_value` is quantity times cost per
unit, per its docstring and the spec's cost-arithmetic scope note. -/
def Part.calculate_value (p : Part) : ℚ :=
  (p.quantity : ℚ) * p.cost

/-- Imperative reading of a sequence of `adjust_quantity` calls: a failed call
raises and leaves the Part unchanged. -/
def Part.applyAdjust (p : Part) (amount : Int) : Part :=
  match p.adjust_quantity amount with
  | .ok p2 => p2
  | .error _ => p

/-- Fold of `applyAdjust` over a call sequence. -/
def Part.applyAdjusts (p : Part) (amounts : List Int) : Part :=
  amounts.foldl Part.applyAdjust p

/-- Product entity: the documented attribute table (name, volume,
production_state, customer, due_date, id, bill of materials as part id to
quantity; timestamps and the embedded Action list are omitted as not
invariant-relevant for this development). -/
structure Product where
  name : String
  volume : ℚ
  production_state : ProductionState
  customer : Option String
  due_date : Option Int
  id : String
  parts : List (String × Int)
deriving DecidableEq, Repr

/-- Items a Storage ledger can hold: a Part or a Product, per the documented
`storage : Dict[str, Union[Product, Part]]` attribute. -/
inductive Item where
  | part (p : Part)
  | product (p : Product)
deriving DecidableEq, Repr

/-- The volume attribute of a stored item. -/
def Item.volume : Item → ℚ
  | .part p => p.volume
  | .product p => p.volume

/-- The id attribute of a stored item. -/
def Item.id : Item → String
  | .part p => p.id
  | .product p => p.id

/-- Storage entity: the documented attribute table (Location base attributes
plus the item ledger and the volumetric max/current capacity). -/
structure Storage where
  name : String
  georeference : List ℚ
  storage_type : StorageType
  max_capacity : ℚ
  id : String
  storage : List (String × Item)
  current_capacity : ℚ
deriving DecidableEq, Repr

/-- Modelled from the spec: the Storage constructor body is not in the
repository; construction validates a non-negative capacity per the
specification's lifecycle section and starts with an empty ledger and zero
current capacity. -/
def Storage.make (name : String) (georeference : List ℚ) (storage_type : StorageType)
    (max_capacity : ℚ) (id : String) : Except OMMError Storage :=
  if max_capacity < 0 then .error .ValidationError
  else .ok ⟨name, georeference, storage_type, max_capacity, id, [], 0⟩

/-- Documented property: the remaining available capacity. -/
def Storage.available_capacity (s : Storage) : ℚ :=
  s.max_capacity - s.current_capacity

/-- Modelled from the spec: the body of `Storage.add_item` is not in the
repository.  Its docstring says it adds a Product or Part and raises
`ValueError` (taxonomy: `CapacityExceeded`) if adding the item would exceed
capacity; the spec's storage-ledger section says it otherwise inserts the item
and increments the current capacity by the item's volume (scenario A fixes the
increment as the item's `volume` attribute), and the spec's entity-model
section says re-adding an already-present id is rejected rather than silently
overwritten (taxonomy: `ValidationError`). -/
def Storage.add_item (s : Storage) (item : Item) : Except OMMError Storage :=
  if s.max_capacity < s.current_capacity + item.volume then
    .error .CapacityExceeded
  else if (alookup s.storage item.id).isSome then
    .error .ValidationError
  else
    .ok { s with
      storage := s.storage ++ [(item.id, item)],
      current_capacity := s.current_capacity + item.volume }

/-- Modelled from the spec: the body of `Storage.get_item` is not in the
repository; its docstring says it returns the item by id without removing it
and raises `KeyError` (taxonomy: `NotFound`) when the id is not in storage. -/
def Storage.get_item (s : Storage) (item_id : String) : Except OMMError Item :=
  match alookup s.storage item_id with
  | none => .error .NotFound
  | some item => .ok item

/-- Modelled from the spec: the body of `Storage.remove_item` is not in the
repository; its docstring says it removes and returns the item by id, raising
`KeyError` (taxonomy: `NotFound`) when the id is not in storage, and the spec's
ledger section says the current capacity tracks the removed volume. -/
def Storage.remove_item (s : Storage) (item_id : String) : Except OMMError (Item × Storage) :=
  match alookup s.storage item_id with
  | none => .error .NotFound
  | some item =>
      .ok (item, { s with
        storage := aerase s.storage item_id,
        current_capacity := s.current_capacity - item.volume })

/-- An operation on a Storage: one `add_item` or one `remove_item` call. -/
inductive StorageOp where
  | add (item : Item)
  | remove (item_id : String)

/-- Imperative reading of one Storage call: a failed mutation raises and leaves
the Storage in its prior state. -/
def Storage.applyOp (s : Storage) (op : StorageOp) : Storage :=
  match op with
  | .add item =>
      match s.add_item item with
      | .ok s2 => s2
      | .error _ => s
  | .remove item_id =>
      match s.remove_item item_id with
      | .ok (_, s2) => s2
      | .error _ => s

/-- Fold of `applyOp` over a call sequence. -/
def Storage.applyOps (s : Storage) (ops : List StorageOp) : Storage :=
  ops.foldl Storage.applyOp s

/-- A Storage operation is well formed when any added item carries the
non-negative volume that the validating Part/Product constructors guarantee. -/
def StorageOp.wf : StorageOp → Prop
  | .add item => 0 ≤ item.volume
  | .remove _ => True

/-- Sum of the volumes of the items in a ledger. -/
def ledgerVolume (l : List (String × Item)) : ℚ :=
  (l.map (fun e => e.2.volume)).sum

/-- The Storage ledger invariant of the specification: the current capacity
equals the sum of contained item volumes, never exceeds the maximum capacity,
and every stored item has a non-negative volume. -/
def Storage.Inv (s : Storage) : Prop :=
  s.current_capacity = ledgerVolume s.storage ∧
  s.current_capacity ≤ s.max_capacity ∧
  ∀ e ∈ s.storage, 0 ≤ e.2.volume

/-- Actor entity: the documented attribute table (name, id, associated
location ids; timestamps omitted). -/
structure Actor where
  name : String
  id : String
  locations : List String
deriving DecidableEq, Repr

/-- Worker entity: the documented attribute table — an Actor plus `roles`, a
mapping of role name to the list of allowed resource-type/capability tags. -/
structure Worker where
  name : String
  id : String
  roles : List (String × List String)
  locations : List String
deriving DecidableEq, Repr

/-- Location entity: the documented attribute table (name, georeference,
location_type, id; related-entity lists and timestamps omitted). -/
structure Location where
  name : String
  georeference : List ℚ
  location_type : LocationType
  id : String
deriving DecidableEq, Repr

/-- Resource entity, modelled per the spec's design note as one record with a
variant tag (`resource_type`) plus the shared documented attributes: name,
georeference, id, status, a capability list, and the slot capacities
(`max_capacity` simultaneous operations, `current_capacity` in progress) that
the WorkStation-style variants document. -/
structure Resource where
  name : String
  resource_type : ResourceType
  georeference : List ℚ
  id : String
  capabilities : List String
  max_capacity : Int
  current_capacity : Int
  status : ResourceStatus
deriving DecidableEq, Repr

/-- A requirement spec element: the documented `specs` lists mix strings
(names, types) and integers (quantities). -/
inductive SpecVal where
  | str (s : String)
  | int (n : Int)
deriving DecidableEq, Repr

/-- Requirement entity: the documented (kind, specs) pair. -/
structure Requirement where
  req_type : RequirementType
  specs : List SpecVal
deriving DecidableEq, Repr

/-- The string content of a spec element, when it is a string. -/
def SpecVal.asStr : SpecVal → Option String
  | .str s => some s
  | .int _ => none

/-- The string elements of a specs list. -/
def specStrings (specs : List SpecVal) : List String :=
  specs.filterMap SpecVal.asStr

/-- Display name of a requirement kind, used in missing-requirement
descriptions ("Worker: Assembler" in the spec's scenario C). -/
def RequirementType.displayName : RequirementType → String
  | .MACHINE => "Machine"
  | .WORKSTATION => "Workstation"
  | .CONVEYER => "Conveyor"
  | .ROBOTIC_ARM => "RoboticArm"
  | .VEHICLE => "Vehicle"
  | .PART => "Part"
  | .PRODUCT => "Product"
  | .WORKER => "Worker"
  | .TOOL => "Tool"

/-- Display string of a spec element. -/
def SpecVal.display : SpecVal → String
  | .str s => s
  | .int n => toString n

/-- Missing-requirement description: the kind's display name, a colon, and the
comma-separated specs, matching the documented example "Worker: Assembler". -/
def Requirement.description (req : Requirement) : String :=
  req.req_type.displayName ++ (": ") ++ String.intercalate (", ") (req.specs.map SpecVal.display)

/-- Resource variant demanded by a resource-kind requirement (PART, PRODUCT
and WORKER requirements are not about resources). -/
def RequirementType.resourceVariant : RequirementType → Option ResourceType
  | .MACHINE => some .MACHINE
  | .WORKSTATION => some .WORKSTATION
  | .CONVEYER => some .CONVEYOR
  | .ROBOTIC_ARM => some .ROBOTIC_ARM
  | .VEHICLE => some .VEHICLE
  | .TOOL => some .TOOL
  | .PART => none
  | .PRODUCT => none
  | .WORKER => none

/-- Modelled from the spec: a role of the worker's role-capability mapping
matches the requirement specs when the role's name is one of the specs or one
of its authorized tags is (scenario C requires a worker whose role is named
"Assembler" to satisfy specs ["Assembler"], so the role name participates in
the match alongside the authorized tags). -/
def Worker.roleMatches (w : Worker) (specs : List String) : Bool :=
  w.roles.any (fun rt => specs.contains rt.1 || rt.2.any (fun tag => specs.contains tag))

/-- Display name of a resource type, as used in role authorization tags
("Machine", "Workstation", ...). -/
def ResourceType.typeName : ResourceType → String
  | .GENERAL => "General"
  | .MACHINE => "Machine"
  | .WORKSTATION => "Workstation"
  | .CONVEYOR => "Conveyor"
  | .ROBOTIC_ARM => "RoboticArm"
  | .VEHICLE => "Vehicle"
  | .TOOL => "Tool"

/-- Modelled from the spec: the body of `Worker.can_work_with` is not in the
repository; its docstring says it checks whether any of the worker's roles
allows them to work with the given resource's type. -/
def Worker.can_work_with (w : Worker) (r : Resource) : Bool :=
  w.roles.any (fun rt => rt.2.contains r.resource_type.typeName)

/-- Whether a resource's declared type (its name) or capability list matches
some spec string, any resource qualifying when specs is empty, per the spec's
matcher section. -/
def Resource.matchesSpecs (r : Resource) (specs : List String) : Bool :=
  specs.isEmpty || specs.any (fun sp => sp = r.name || r.capabilities.contains sp)

/-- Inventory view of the candidate location passed to
`check_requirements_satisfied`: part quantities by name, product names in
scope, and the resources present.  Modelled from the spec's matcher section
(part requirements read the target location's inventory; checking never
mutates it). -/
structure Inventory where
  parts : List (String × Int)
  products : List String
  resources : List Resource
deriving DecidableEq, Repr

/-- Quantity of a named part available in an inventory (0 when absent). -/
def Inventory.partQuantity (inv : Inventory) (pname : String) : Int :=
  match alookup inv.parts pname with
  | some q => q
  | none => 0

/-- Action entity: the documented attribute table restricted to the fields
this development needs (name, action_type, description, duration in hours,
job_id, status, requirements, id, sequence_nr, assigned worker, assigned
resource — the Resource member of the documented `location` union — and
progress). -/
structure ActionE where
  name : String
  action_type : ActionType
  description : Option String
  duration : ℚ
  job_id : Option String
  status : ActionStatus
  requirements : List Requirement
  id : String
  sequence_nr : Int
  worker : Option Worker
  resource : Option Resource
  progress : ℚ
deriving DecidableEq, Repr

/-- A requirement is well formed when its specs fit the documented shape of
its kind: a PART requirement is a name with a non-negative quantity, a PRODUCT
requirement is a single name; other kinds take a list of strings.  (Unknown
kinds cannot arise in the embedding because the kind is an enumeration.) -/
def Requirement.wellFormed (req : Requirement) : Bool :=
  match req.req_type, req.specs with
  | .PART, [.str _, .int q] => decide (0 ≤ q)
  | .PART, _ => false
  | .PRODUCT, [.str _] => true
  | .PRODUCT, _ => false
  | _, specs => specs.all (fun sp => (sp.asStr).isSome)

/-- Declarative satisfaction of one requirement against an action's assignment
and a candidate inventory, from the spec's matcher section: a WORKER
requirement needs an assigned worker whose role mapping matches the specs (or
empty specs); a resource-kind requirement needs an assigned resource of that
variant whose declared type or capabilities match the specs (or empty specs);
a PART requirement needs the inventory to hold at least the requested
quantity; a PRODUCT requirement needs the referenced product in scope. -/
def Requirement.satisfiedAt (a : ActionE) (inv : Inventory) (req : Requirement) : Bool :=
  match req.req_type.resourceVariant with
  | some variant =>
      match a.resource with
      | none => false
      | some r => r.resource_type = variant && r.matchesSpecs (specStrings req.specs)
  | none =>
      match req.req_type with
      | .WORKER =>
          match a.worker with
          | none => false
          | some w => req.specs.isEmpty || w.roleMatches (specStrings req.specs)
      | .PART =>
          match req.specs with
          | [.str pname, .int q] => q ≤ inv.partQuantity pname
          | _ => false
      | _ =>
          match req.specs with
          | [.str pname] => inv.products.contains pname
          | _ => false

/-- Modelled from the spec: checking one requirement raises `ValidationError`
only when the requirement is malformed (negative quantity, wrong specs shape;
unknown kinds cannot arise), and otherwise reports `none` when satisfied or
the missing-requirement description when not — never an exception. -/
def checkRequirement (a : ActionE) (inv : Inventory) (req : Requirement) :
    Except OMMError (Option String) :=
  if req.wellFormed then
    .ok (if req.satisfiedAt a inv then none else some req.description)
  else
    .error .ValidationError

/-- Modelled from the spec: evaluation of a requirement list, every
requirement evaluated independently so that all missing items are reported
together. -/
def collectMissing (a : ActionE) (inv : Inventory) :
    List Requirement → Except OMMError (List String)
  | [] => .ok []
  | req :: rest =>
      match checkRequirement a inv req with
      | .error e => .error e
      | .ok m =>
          match collectMissing a inv rest with
          | .error e => .error e
          | .ok ms => .ok (m.toList ++ ms)

/-- Modelled from the spec: the body of `Action.check_requirements_satisfied`
is not in the repository; its docstring says it checks all requirements at the
given location and returns a tuple of a satisfaction flag and the list of
missing-requirement descriptions. -/
def ActionE.check_requirements_satisfied (a : ActionE) (inv : Inventory) :
    Except OMMError (Bool × List String) :=
  match collectMissing a inv a.requirements with
  | .error e => .error e
  | .ok ms => .ok (ms.isEmpty, ms)

/-- Job entity: the documented attribute table restricted to the fields this
development needs (id, customer, products, due_date, priority, status,
start_date, completion_date, the allocation table mapping Action ids to
Resource ids, and the ordered Action list). -/
structure Job where
  id : String
  customer : Option String
  products : List Product
  due_date : Option Int
  priority : Option JobPriority
  status : JobStatus
  start_date : Option Int
  completion_date : Option Int
  allocated_resources : List (String × String)
  actions : List ActionE
deriving DecidableEq, Repr

/-- Modelled from the spec: the body of `Job.start_job` is not in the
repository.  The spec's orchestrator section gives the precondition (fails
`InvalidTransition` unless the status is PLANNED), and the repository's Python
Reference page states that on success the only attributes that change are
`status` (to in-progress) and `start_date` — "Nothing more and nothing less";
in particular no Action is started. -/
def Job.start_job (j : Job) (now : Int) : Except OMMError Job :=
  if j.status = .PLANNED then
    .ok { j with status := .IN_PROGRESS, start_date := some now }
  else
    .error .InvalidTransition

/-- Modelled from the spec: `Job.get_ready_actions` returns the Actions with
status REQUESTED or CONFIRMED and no lower-sequence sibling still incomplete,
per the spec's orchestrator section. -/
def Job.get_ready_actions (j : Job) : List ActionE :=
  j.actions.filter (fun a =>
    (a.status = ActionStatus.REQUESTED || a.status = ActionStatus.CONFIRMED) &&
    j.actions.all (fun b => b.sequence_nr < a.sequence_nr → b.status = ActionStatus.COMPLETED))

/-- Modelled from the spec: `Job.get_progress` is the completed-Action count
divided by the total Action count, times 100, and 0 for a Job with no
Actions, per the spec's orchestrator section. -/
def Job.get_progress (j : Job) : ℚ :=
  if j.actions.length = 0 then 0
  else ((j.actions.filter (fun a => a.status = ActionStatus.COMPLETED)).length : ℚ) /
    (j.actions.length : ℚ) * 100

/-- Modelled from the spec: `Job.get_estimated_completion_time` is the sum of
the durations of the not-yet-completed Actions, in hours. -/
def Job.get_estimated_completion_time (j : Job) : ℚ :=
  ((j.actions.filter (fun a => ¬ a.status = ActionStatus.COMPLETED)).map
    (fun a => a.duration)).sum

/-- The world a Job executes in: the Job together with the pool of Resources
it may allocate, addressed by id.  The Python methods mutate the passed
Resource objects in place; the functional embedding threads this record
instead. -/
structure World where
  job : Job
  resources : List Resource
deriving DecidableEq, Repr

/-- Increment (or, with a negative delta, decrement) the load of one resource
when its id matches. -/
def bumpR (delta : Int) (rid : String) (r : Resource) : Resource :=
  if r.id = rid then { r with current_capacity := r.current_capacity + delta } else r

/-- Increment (or, with a negative delta, decrement) the load of the resource
with the given id. -/
def bumpLoad (delta : Int) (rid : String) (rs : List Resource) : List Resource :=
  rs.map (bumpR delta rid)

/-- Modelled from the spec: the body of `Job.allocate_resource` is not in the
repository.  The spec's capacity-manager section says allocation fails with
`CapacityExceeded` if the resource is already at its slot limit, and otherwise
records the allocation in the Job's allocation table and increments the
resource's current load; an unknown resource id fails `NotFound` and an
action that already holds an allocation is rejected (`ValidationError`), the
table mapping each action id to one resource id. -/
def World.allocate_resource (w : World) (action_id resource_id : String) :
    Except OMMError World :=
  match w.resources.find? (fun r => r.id = resource_id) with
  | none => .error .NotFound
  | some r =>
      if (alookup w.job.allocated_resources action_id).isSome then
        .error .ValidationError
      else if r.max_capacity ≤ r.current_capacity then
        .error .CapacityExceeded
      else
        .ok { job := { w.job with
                allocated_resources := w.job.allocated_resources ++ [(action_id, resource_id)] },
              resources := bumpLoad 1 resource_id w.resources }

/-- Release every allocation of an allocation table, decrementing the load of
each allocated resource once per held allocation. -/
def releaseAll (tbl : List (String × String)) (rs : List Resource) : List Resource :=
  tbl.foldl (fun rs2 e => bumpLoad (-1) e.2 rs2) rs

/-- Modelled from the spec: the body of `Job.cancel_job` is not in the
repository.  Scenario E and the job state machine give the behaviour:
cancelling fails `InvalidTransition` unless the status is PLANNED, IN_PROGRESS
or ON_HOLD; on success the status becomes CANCELLED and every Resource
allocation held in the Job's allocation table is released, returning each
resource's load to its pre-allocation value. -/
def World.cancel_job (w : World) : Except OMMError World :=
  if w.job.status = .PLANNED ∨ w.job.status = .IN_PROGRESS ∨ w.job.status = .ON_HOLD then
    .ok { job := { w.job with status := .CANCELLED, allocated_resources := [] },
          resources := releaseAll w.job.allocated_resources w.resources }
  else
    .error .InvalidTransition

/-- A run of successful `allocate_resource` calls; `none` when any call in the
sequence fails. -/
def World.allocAll (w : World) : List (String × String) → Option World
  | [] => some w
  | (a, r) :: rest =>
      match w.allocate_resource a r with
      | .ok w2 => w2.allocAll rest
      | .error _ => none

/-- The current load of the resource with the given id. -/
def World.load (w : World) (rid : String) : Option Int :=
  (w.resources.find? (fun r => r.id = rid)).map (fun r => r.current_capacity)

/-- Primitive values of the documented serialization surface (`to_dict`):
strings, integers, exact numerics, booleans, lists, nested string-keyed
mappings, and null for absent optionals. -/
inductive DValue where
  | str (v : String)
  | int (v : Int)
  | rat (v : ℚ)
  | bool (v : Bool)
  | list (vs : List DValue)
  | dict (kvs : List (String × DValue))
  | null

/-- Decode a string value. -/
def DValue.asStr : DValue → Option String
  | .str v => some v
  | _ => none

/-- Decode an integer value. -/
def DValue.asInt : DValue → Option Int
  | .int v => some v
  | _ => none

/-- Decode an exact numeric value. -/
def DValue.asRat : DValue → Option ℚ
  | .rat v => some v
  | _ => none

/-- Decode a list value. -/
def DValue.asList : DValue → Option (List DValue)
  | .list vs => some vs
  | _ => none

/-- Decode a nested mapping value. -/
def DValue.asDict : DValue → Option (List (String × DValue))
  | .dict kvs => some kvs
  | _ => none

/-- Decode an optional string (null or string). -/
def DValue.asOptStr : DValue → Option (Option String)
  | .null => some none
  | .str v => some (some v)
  | _ => none

/-- Decode an optional integer (null or integer). -/
def DValue.asOptInt : DValue → Option (Option Int)
  | .null => some none
  | .int v => some (some v)
  | _ => none

/-- Encode an optional string. -/
def optStrV : Option String → DValue
  | none => .null
  | some s => .str s

/-- Encode an optional integer (timestamps, due dates). -/
def optIntV : Option Int → DValue
  | none => .null
  | some n => .int n

/-- Field access in a serialized mapping. -/
def dget (d : List (String × DValue)) (k : String) : Option DValue :=
  alookup d k

/-- Serialized name of a StorageType. -/
def StorageType.toStr : StorageType → String
  | .GENERAL => "GENERAL"
  | .WAREHOUSE => "WAREHOUSE"
  | .RACK => "RACK"
  | .BUFFER => "BUFFER"
  | .QUEUE => "QUEUE"

/-- Parse a StorageType from its serialized name. -/
def StorageType.ofStr : String → Option StorageType
  | "GENERAL" => some .GENERAL
  | "WAREHOUSE" => some .WAREHOUSE
  | "RACK" => some .RACK
  | "BUFFER" => some .BUFFER
  | "QUEUE" => some .QUEUE
  | _ => none

/-- Serialized name of a LocationType. -/
def LocationType.toStr : LocationType → String
  | .INTERNAL => "INTERNAL"
  | .EXTERNAL => "EXTERNAL"

/-- Parse a LocationType from its serialized name. -/
def LocationType.ofStr : String → Option LocationType
  | "INTERNAL" => some .INTERNAL
  | "EXTERNAL" => some .EXTERNAL
  | _ => none

/-- Serialized name of a ProductionState. -/
def ProductionState.toStr : ProductionState → String
  | .RAW => "RAW"
  | .NEW => "NEW"
  | .WORK_IN_PROGRESS => "WORK_IN_PROGRESS"
  | .FINISHED => "FINISHED"
  | .DEFECTIVE => "DEFECTIVE"
  | .ON_HOLD => "ON_HOLD"

/-- Parse a ProductionState from its serialized name. -/
def ProductionState.ofStr : String → Option ProductionState
  | "RAW" => some .RAW
  | "NEW" => some .NEW
  | "WORK_IN_PROGRESS" => some .WORK_IN_PROGRESS
  | "FINISHED" => some .FINISHED
  | "DEFECTIVE" => some .DEFECTIVE
  | "ON_HOLD" => some .ON_HOLD
  | _ => none

/-- Serialized name of a PartType. -/
def PartType.toStr : PartType → String
  | .RAW_MATERIAL => "RAW_MATERIAL"
  | .PURCHASED_COMPONENT => "PURCHASED_COMPONENT"
  | .WORK_IN_PROGRESS => "WORK_IN_PROGRESS"

/-- Parse a PartType from its serialized name. -/
def PartType.ofStr : String → Option PartType
  | "RAW_MATERIAL" => some .RAW_MATERIAL
  | "PURCHASED_COMPONENT" => some .PURCHASED_COMPONENT
  | "WORK_IN_PROGRESS" => some .WORK_IN_PROGRESS
  | _ => none

/-- Serialized name of a ResourceType. -/
def ResourceType.toStr : ResourceType → String
  | .GENERAL => "GENERAL"
  | .MACHINE => "MACHINE"
  | .WORKSTATION => "WORKSTATION"
  | .CONVEYOR => "CONVEYOR"
  | .ROBOTIC_ARM => "ROBOTIC_ARM"
  | .VEHICLE => "VEHICLE"
  | .TOOL => "TOOL"

/-- Parse a ResourceType from its serialized name. -/
def ResourceType.ofStr : String → Option ResourceType
  | "GENERAL" => some .GENERAL
  | "MACHINE" => some .MACHINE
  | "WORKSTATION" => some .WORKSTATION
  | "CONVEYOR" => some .CONVEYOR
  | "ROBOTIC_ARM" => some .ROBOTIC_ARM
  | "VEHICLE" => some .VEHICLE
  | "TOOL" => some .TOOL
  | _ => none

/-- Serialized name of a ResourceStatus. -/
def ResourceStatus.toStr : ResourceStatus → String
  | .IDLE => "IDLE"
  | .WAIT => "WAIT"
  | .LOAD => "LOAD"
  | .UNLOAD => "UNLOAD"
  | .WORKING => "WORKING"
  | .FAILED => "FAILED"
  | .CHARGING => "CHARGING"

/-- Parse a ResourceStatus from its serialized name. -/
def ResourceStatus.ofStr : String → Option ResourceStatus
  | "IDLE" => some .IDLE
  | "WAIT" => some .WAIT
  | "LOAD" => some .LOAD
  | "UNLOAD" => some .UNLOAD
  | "WORKING" => some .WORKING
  | "FAILED" => some .FAILED
  | "CHARGING" => some .CHARGING
  | _ => none

/-- Serialized name of an ActionStatus. -/
def ActionStatus.toStr : ActionStatus → String
  | .DRAFT => "DRAFT"
  | .REQUESTED => "REQUESTED"
  | .CONFIRMED => "CONFIRMED"
  | .IN_PROGRESS => "IN_PROGRESS"
  | .COMPLETED => "COMPLETED"
  | .CANCELLED => "CANCELLED"

/-- Parse an ActionStatus from its serialized name. -/
def ActionStatus.ofStr : String → Option ActionStatus
  | "DRAFT" => some .DRAFT
  | "REQUESTED" => some .REQUESTED
  | "CONFIRMED" => some .CONFIRMED
  | "IN_PROGRESS" => some .IN_PROGRESS
  | "COMPLETED" => some .COMPLETED
  | "CANCELLED" => some .CANCELLED
  | _ => none

/-- Serialized name of a JobStatus. -/
def JobStatus.toStr : JobStatus → String
  | .PLANNED => "PLANNED"
  | .IN_PROGRESS => "IN_PROGRESS"
  | .ON_HOLD => "ON_HOLD"
  | .COMPLETED => "COMPLETED"
  | .CANCELLED => "CANCELLED"

/-- Parse a JobStatus from its serialized name. -/
def JobStatus.ofStr : String → Option JobStatus
  | "PLANNED" => some .PLANNED
  | "IN_PROGRESS" => some .IN_PROGRESS
  | "ON_HOLD" => some .ON_HOLD
  | "COMPLETED" => some .COMPLETED
  | "CANCELLED" => some .CANCELLED
  | _ => none

/-- Serialized name of a JobPriority. -/
def JobPriority.toStr : JobPriority → String
  | .LOW => "LOW"
  | .MEDIUM => "MEDIUM"
  | .HIGH => "HIGH"
  | .URGENT => "URGENT"

/-- Parse a JobPriority from its serialized name. -/
def JobPriority.ofStr : String → Option JobPriority
  | "LOW" => some .LOW
  | "MEDIUM" => some .MEDIUM
  | "HIGH" => some .HIGH
  | "URGENT" => some .URGENT
  | _ => none

/-- Serialized name of an ActionType. -/
def ActionType.toStr : ActionType → String
  | .STOP => "STOP"
  | .LOAD => "LOAD"
  | .UNLOAD => "UNLOAD"
  | .MOVE => "MOVE"
  | .ATTACH => "ATTACH"
  | .DETACH => "DETACH"
  | .BREAK => "BREAK"
  | .WAIT => "WAIT"
  | .PROCESS => "PROCESS"
  | .ASSEMBLY => "ASSEMBLY"
  | .MACHINING => "MACHINING"
  | .QUALITY_CHECK => "QUALITY_CHECK"
  | .PACKAGING => "PACKAGING"
  | .STORAGE => "STORAGE"
  | .SETUP => "SETUP"
  | .CLEAN => "CLEAN"
  | .INSPECT => "INSPECT"
  | .REPAIR => "REPAIR"
  | .MAINTENANCE => "MAINTENANCE"

/-- Parse an ActionType from its serialized name. -/
def ActionType.ofStr : String → Option ActionType
  | "STOP" => some .STOP
  | "LOAD" => some .LOAD
  | "UNLOAD" => some .UNLOAD
  | "MOVE" => some .MOVE
  | "ATTACH" => some .ATTACH
  | "DETACH" => some .DETACH
  | "BREAK" => some .BREAK
  | "WAIT" => some .WAIT
  | "PROCESS" => some .PROCESS
  | "ASSEMBLY" => some .ASSEMBLY
  | "MACHINING" => some .MACHINING
  | "QUALITY_CHECK" => some .QUALITY_CHECK
  | "PACKAGING" => some .PACKAGING
  | "STORAGE" => some .STORAGE
  | "SETUP" => some .SETUP
  | "CLEAN" => some .CLEAN
  | "INSPECT" => some .INSPECT
  | "REPAIR" => some .REPAIR
  | "MAINTENANCE" => some .MAINTENANCE
  | _ => none

/-- Serialized name of a RequirementType. -/
def RequirementType.toStr : RequirementType → String
  | .MACHINE => "MACHINE"
  | .WORKSTATION => "WORKSTATION"
  | .CONVEYER => "CONVEYER"
  | .ROBOTIC_ARM => "ROBOTIC_ARM"
  | .VEHICLE => "VEHICLE"
  | .PART => "PART"
  | .PRODUCT => "PRODUCT"
  | .WORKER => "WORKER"
  | .TOOL => "TOOL"

/-- Parse a RequirementType from its serialized name. -/
def RequirementType.ofStr : String → Option RequirementType
  | "MACHINE" => some .MACHINE
  | "WORKSTATION" => some .WORKSTATION
  | "CONVEYER" => some .CONVEYER
  | "ROBOTIC_ARM" => some .ROBOTIC_ARM
  | "VEHICLE" => some .VEHICLE
  | "PART" => some .PART
  | "PRODUCT" => some .PRODUCT
  | "WORKER" => some .WORKER
  | "TOOL" => some .TOOL
  | _ => none

/-- Decode every element of a serialized list, failing if any element fails. -/
def decodeList {α : Type} (f : DValue → Option α) : List DValue → Option (List α)
  | [] => some []
  | v :: vs =>
      match f v with
      | none => none
      | some x =>
          match decodeList f vs with
          | none => none
          | some xs => some (x :: xs)

/-- Decode every value of a serialized mapping, failing if any value fails. -/
def decodeEntries {α : Type} (f : DValue → Option α) :
    List (String × DValue) → Option (List (String × α))
  | [] => some []
  | (k, v) :: kvs =>
      match f v with
      | none => none
      | some x =>
          match decodeEntries f kvs with
          | none => none
          | some xs => some ((k, x) :: xs)

/-- Modelled from the spec: `Actor.to_dict`, the documented deterministic
mapping of the entity's attributes to primitive values. -/
def Actor.to_dict (a : Actor) : List (String × DValue) :=
  [("name", .str a.name), ("id", .str a.id),
   ("locations", .list (a.locations.map DValue.str))]

/-- Modelled from the spec: reconstruction of an Actor from its serialized
mapping, the inverse the serialization surface must admit. -/
def Actor.from_dict : List (String × DValue) → Option Actor
  | [("name", .str name), ("id", .str id), ("locations", .list locs)] =>
      match decodeList DValue.asStr locs with
      | some locations => some ⟨name, id, locations⟩
      | none => none
  | _ => none

/-- Modelled from the spec: `Worker.to_dict`. -/
def Worker.to_dict (w : Worker) : List (String × DValue) :=
  [("name", .str w.name), ("id", .str w.id),
   ("roles", .dict (w.roles.map (fun rt => (rt.1, DValue.list (rt.2.map DValue.str))))),
   ("locations", .list (w.locations.map DValue.str))]

/-- Modelled from the spec: reconstruction of a Worker from its serialized
mapping. -/
def Worker.from_dict : List (String × DValue) → Option Worker
  | [("name", .str name), ("id", .str id), ("roles", .dict rolesd),
     ("locations", .list locs)] =>
      match decodeEntries (fun v => (v.asList).bind (decodeList DValue.asStr)) rolesd,
          decodeList DValue.asStr locs with
      | some roles, some locations => some ⟨name, id, roles, locations⟩
      | _, _ => none
  | _ => none

/-- Modelled from the spec: `Location.to_dict`. -/
def Location.to_dict (l : Location) : List (String × DValue) :=
  [("name", .str l.name), ("georeference", .list (l.georeference.map DValue.rat)),
   ("location_type", .str l.location_type.toStr), ("id", .str l.id)]

/-- Modelled from the spec: reconstruction of a Location from its serialized
mapping. -/
def Location.from_dict : List (String × DValue) → Option Location
  | [("name", .str name), ("georeference", .list geov),
     ("location_type", .str lts), ("id", .str id)] =>
      match decodeList DValue.asRat geov, LocationType.ofStr lts with
      | some georeference, some location_type => some ⟨name, georeference, location_type, id⟩
      | _, _ => none
  | _ => none

/-- Modelled from the spec: `Part.to_dict`, per the documented method. -/
def Part.to_dict (p : Part) : List (String × DValue) :=
  [("name", .str p.name), ("quantity", .int p.quantity), ("volume", .rat p.volume),
   ("state", .str p.state.toStr), ("part_type", .str p.part_type.toStr),
   ("cost", .rat p.cost), ("min_stock_level", .int p.min_stock_level), ("id", .str p.id)]

/-- Modelled from the spec: reconstruction of a Part from its serialized
mapping. -/
def Part.from_dict : List (String × DValue) → Option Part
  | [("name", .str name), ("quantity", .int quantity), ("volume", .rat volume),
     ("state", .str sts), ("part_type", .str pts), ("cost", .rat cost),
     ("min_stock_level", .int min_stock_level), ("id", .str id)] =>
      match ProductionState.ofStr sts, PartType.ofStr pts with
      | some state, some part_type =>
          some ⟨name, quantity, volume, state, part_type, cost, min_stock_level, id⟩
      | _, _ => none
  | _ => none

/-- Modelled from the spec: `Product.to_dict`. -/
def Product.to_dict (p : Product) : List (String × DValue) :=
  [("name", .str p.name), ("volume", .rat p.volume),
   ("production_state", .str p.production_state.toStr),
   ("customer", optStrV p.customer), ("due_date", optIntV p.due_date),
   ("id", .str p.id),
   ("parts", .dict (p.parts.map (fun e => (e.1, DValue.int e.2))))]

/-- Modelled from the spec: reconstruction of a Product from its serialized
mapping. -/
def Product.from_dict : List (String × DValue) → Option Product
  | [("name", .str name), ("volume", .rat volume),
     ("production_state", .str pss), ("customer", cv), ("due_date", dv),
     ("id", .str id), ("parts", .dict partsd)] =>
      match ProductionState.ofStr pss, cv.asOptStr, dv.asOptInt,
          decodeEntries DValue.asInt partsd with
      | some production_state, some customer, some due_date, some parts =>
          some ⟨name, volume, production_state, customer, due_date, id, parts⟩
      | _, _, _, _ => none
  | _ => none

/-- Serialized form of a stored item, tagged with its kind. -/
def Item.toV : Item → DValue
  | .part p => .dict (("kind", DValue.str ("Part")) :: p.to_dict)
  | .product p => .dict (("kind", DValue.str ("Product")) :: p.to_dict)

/-- Reconstruction of a stored item from its tagged serialized form. -/
def Item.ofV : DValue → Option Item
  | .dict (("kind", .str ("Part")) :: rest) => (Part.from_dict rest).map Item.part
  | .dict (("kind", .str ("Product")) :: rest) => (Product.from_dict rest).map Item.product
  | _ => none

/-- Modelled from the spec: `Storage.to_dict`, per the documented method. -/
def Storage.to_dict (s : Storage) : List (String × DValue) :=
  [("name", .str s.name), ("georeference", .list (s.georeference.map DValue.rat)),
   ("storage_type", .str s.storage_type.toStr), ("max_capacity", .rat s.max_capacity),
   ("id", .str s.id),
   ("storage", .dict (s.storage.map (fun e => (e.1, Item.toV e.2)))),
   ("current_capacity", .rat s.current_capacity)]

/-- Modelled from the spec: reconstruction of a Storage from its serialized
mapping. -/
def Storage.from_dict : List (String × DValue) → Option Storage
  | [("name", .str name), ("georeference", .list geov),
     ("storage_type", .str sts), ("max_capacity", .rat max_capacity),
     ("id", .str id), ("storage", .dict ledgerd),
     ("current_capacity", .rat current_capacity)] =>
      match decodeList DValue.asRat geov, StorageType.ofStr sts,
          decodeEntries Item.ofV ledgerd with
      | some georeference, some storage_type, some ledger =>
          some ⟨name, georeference, storage_type, max_capacity, id, ledger,
            current_capacity⟩
      | _, _, _ => none
  | _ => none

/-- Modelled from the spec: `Resource.to_dict`. -/
def Resource.to_dict (r : Resource) : List (String × DValue) :=
  [("name", .str r.name), ("resource_type", .str r.resource_type.toStr),
   ("georeference", .list (r.georeference.map DValue.rat)), ("id", .str r.id),
   ("capabilities", .list (r.capabilities.map DValue.str)),
   ("max_capacity", .int r.max_capacity), ("current_capacity", .int r.current_capacity),
   ("status", .str r.status.toStr)]

/-- Modelled from the spec: reconstruction of a Resource from its serialized
mapping. -/
def Resource.from_dict : List (String × DValue) → Option Resource
  | [("name", .str name), ("resource_type", .str rts),
     ("georeference", .list geov), ("id", .str id),
     ("capabilities", .list capsv),
     ("max_capacity", .int max_capacity), ("current_capacity", .int current_capacity),
     ("status", .str stv)] =>
      match ResourceType.ofStr rts, decodeList DValue.asRat geov,
          decodeList DValue.asStr capsv, ResourceStatus.ofStr stv with
      | some resource_type, some georeference, some capabilities, some status =>
          some ⟨name, resource_type, georeference, id, capabilities, max_capacity,
            current_capacity, status⟩
      | _, _, _, _ => none
  | _ => none

/-- Serialized form of a requirement spec element. -/
def SpecVal.toV : SpecVal → DValue
  | .str s => .str s
  | .int n => .int n

/-- Reconstruction of a requirement spec element. -/
def SpecVal.ofV : DValue → Option SpecVal
  | .str s => some (.str s)
  | .int n => some (.int n)
  | _ => none

/-- Serialized form of a Requirement. -/
def Requirement.toV (req : Requirement) : DValue :=
  .dict [("req_type", .str req.req_type.toStr),
         ("specs", .list (req.specs.map SpecVal.toV))]

/-- Reconstruction of a Requirement from its serialized form. -/
def Requirement.ofV : DValue → Option Requirement
  | .dict [("req_type", .str ts), ("specs", .list specsv)] =>
      match RequirementType.ofStr ts, decodeList SpecVal.ofV specsv with
      | some rt, some specs => some ⟨rt, specs⟩
      | _, _ => none
  | _ => none

/-- Serialized form of an optional nested entity. -/
def optDict : Option (List (String × DValue)) → DValue
  | none => .null
  | some kvs => .dict kvs

/-- Decode an optional nested entity. -/
def decodeOpt {α : Type} (f : List (String × DValue) → Option α) :
    DValue → Option (Option α)
  | .null => some none
  | .dict kvs => (f kvs).map some
  | _ => none

/-- Modelled from the spec: `Action.to_dict`, per the documented method. -/
def ActionE.to_dict (a : ActionE) : List (String × DValue) :=
  [("name", .str a.name), ("action_type", .str a.action_type.toStr),
   ("description", optStrV a.description), ("duration", .rat a.duration),
   ("job_id", optStrV a.job_id), ("status", .str a.status.toStr),
   ("requirements", .list (a.requirements.map Requirement.toV)),
   ("id", .str a.id), ("sequence_nr", .int a.sequence_nr),
   ("worker", optDict (a.worker.map Worker.to_dict)),
   ("resource", optDict (a.resource.map Resource.to_dict)),
   ("progress", .rat a.progress)]

/-- Modelled from the spec: reconstruction of an Action from its serialized
mapping. -/
def ActionE.from_dict : List (String × DValue) → Option ActionE
  | [(k1, .str name), (k2, .str ats), (k3, descv),
     (k4, .rat duration), (k5, jobv), (k6, .str stv),
     (k7, .list reqsv), (k8, .str id), (k9, .int sequence_nr),
     (k10, wv), (k11, rv), (k12, .rat progress)] =>
      if [k1, k2, k3, k4, k5, k6, k7, k8, k9, k10, k11, k12] ≠
          [("name"), ("action_type"), ("description"), ("duration"), ("job_id"),
           ("status"), ("requirements"), ("id"), ("sequence_nr"), ("worker"),
           ("resource"), ("progress")] then none
      else
      match ActionType.ofStr ats with
      | none => none
      | some action_type =>
          match descv.asOptStr with
          | none => none
          | some description =>
              match jobv.asOptStr with
              | none => none
              | some job_id =>
                  match ActionStatus.ofStr stv with
                  | none => none
                  | some status =>
                      match decodeList Requirement.ofV reqsv with
                      | none => none
                      | some requirements =>
                          match decodeOpt Worker.from_dict wv with
                          | none => none
                          | some worker =>
                              match decodeOpt Resource.from_dict rv with
                              | none => none
                              | some resource =>
                                  some ⟨name, action_type, description, duration,
                                    job_id, status, requirements, id, sequence_nr,
                                    worker, resource, progress⟩
  | _ => none

/-- Serialized form of an optional priority. -/
def optPriorityV : Option JobPriority → DValue
  | none => .null
  | some p => .str p.toStr

/-- Decode an optional priority. -/
def DValue.asOptPriority : DValue → Option (Option JobPriority)
  | .null => some none
  | .str s => (JobPriority.ofStr s).map some
  | _ => none

/-- Modelled from the spec: `Job.to_dict`, per the documented method. -/
def Job.to_dict (j : Job) : List (String × DValue) :=
  [("id", .str j.id), ("customer", optStrV j.customer),
   ("products", .list (j.products.map (fun p => DValue.dict p.to_dict))),
   ("due_date", optIntV j.due_date), ("priority", optPriorityV j.priority),
   ("status", .str j.status.toStr), ("start_date", optIntV j.start_date),
   ("completion_date", optIntV j.completion_date),
   ("allocated_resources", .dict (j.allocated_resources.map (fun e => (e.1, DValue.str e.2)))),
   ("actions", .list (j.actions.map (fun a => DValue.dict a.to_dict)))]

/-- Modelled from the spec: reconstruction of a Job from its serialized
mapping. -/
def Job.from_dict : List (String × DValue) → Option Job
  | [(k1, .str id), (k2, custv), (k3, .list prodsv),
     (k4, ddv), (k5, priov), (k6, .str stv),
     (k7, sdv), (k8, cdv),
     (k9, .dict allocd), (k10, .list actsv)] =>
      if [k1, k2, k3, k4, k5, k6, k7, k8, k9, k10] ≠
          [("id"), ("customer"), ("products"), ("due_date"), ("priority"),
           ("status"), ("start_date"), ("completion_date"),
           ("allocated_resources"), ("actions")] then none
      else
      match custv.asOptStr with
      | none => none
      | some customer =>
          match decodeList (fun v => (v.asDict).bind Product.from_dict) prodsv with
          | none => none
          | some products =>
              match ddv.asOptInt with
              | none => none
              | some due_date =>
                  match priov.asOptPriority with
                  | none => none
                  | some priority =>
                      match JobStatus.ofStr stv with
                      | none => none
                      | some status =>
                          match sdv.asOptInt with
                          | none => none
                          | some start_date =>
                              match cdv.asOptInt with
                              | none => none
                              | some completion_date =>
                                  match decodeEntries DValue.asStr allocd with
                                  | none => none
                                  | some allocated_resources =>
                                      match decodeList
                                          (fun v => (v.asDict).bind ActionE.from_dict)
                                          actsv with
                                      | none => none
                                      | some actions =>
                                          some ⟨id, customer, products, due_date,
                                            priority, status, start_date,
                                            completion_date, allocated_resources,
                                            actions⟩
  | _ => none

/-- Concise Action builder for the concrete scenarios below: a PROCESS action
with the given id (also used as name), sequence number, status, duration,
requirements and assigned worker. -/
def mkAction (id : String) (seq : Int) (st : ActionStatus) (dur : ℚ)
    (reqs : List Requirement) (w : Option Worker) : ActionE :=
  ⟨id, .PROCESS, none, dur, none, st, reqs, id, seq, w, none, 0⟩

/-- Scenario A part: volume 0.5 per the spec's storage scenario, with an
arbitrary quantity. -/
def partA (q : Int) : Part :=
  ⟨("Steel Bracket"), q, 1/2, .NEW, .PURCHASED_COMPONENT, 0, 0, ("pA")⟩

/-- Scenario A storage: max capacity 10, freshly constructed. -/
def storageA : Storage :=
  ⟨("Main Warehouse"), [], .WAREHOUSE, 10, ("sA"), [], 0⟩

/-- A second concrete item for the storage witnesses. -/
def itemB : Item :=
  .part ⟨("Aluminum Block"), 3, 2, .NEW, .RAW_MATERIAL, 0, 0, ("pB")⟩

/-- A storage already holding `itemB`, for the not-found witness. -/
def storageC8 : Storage :=
  ⟨("Buffer"), [], .BUFFER, 10, ("sC"), [(("pB"), itemB)], 2⟩

/-- Concrete PLANNED job with one ready (REQUESTED, lowest-sequence) action,
for the `start_job` analysis. -/
def jobC2 : Job :=
  ⟨("j2"), none, [], none, none, .PLANNED, none, none, [],
   [mkAction ("a1") 1 .REQUESTED 1 [] none]⟩

/-- Scenario B job: two actions, sequence 1 (duration 1.0h) COMPLETED and
sequence 2 (duration 2.0h) pending. -/
def jobB : Job :=
  ⟨("jB"), none, [], none, none, .IN_PROGRESS, some 0, none, [],
   [mkAction ("b1") 1 .COMPLETED 1 [] none, mkAction ("b2") 2 .REQUESTED 2 [] none]⟩

/-- Scenario C worker whose single role is named "Assembler" (authorized tags
left empty). -/
def workerAsm : Worker :=
  ⟨("Emma"), ("w1"), [(("Assembler"), [])], []⟩

/-- Scenario C worker whose only role is "Inspector". -/
def workerInsp : Worker :=
  ⟨("Ines"), ("w2"), [(("Inspector"), [("QualityStation")])], []⟩

/-- Scenario C requirement: Requirement(WORKER, ["Assembler"]). -/
def reqWorkerAsm : Requirement :=
  ⟨.WORKER, [.str ("Assembler")]⟩

/-- Scenario C action requiring a WORKER with spec "Assembler", with the given
worker assigned. -/
def actC5 (w : Worker) : ActionE :=
  mkAction ("c5") 1 .CONFIRMED 1 [reqWorkerAsm] (some w)

/-- An empty candidate inventory. -/
def invEmpty : Inventory :=
  ⟨[], [], []⟩

/-- The claim's tags-only reading of the worker-requirement rule: some role's
authorized tags intersect the specs (the role's name does not participate).
Stated from the claim's words, for comparison with the matcher modelled from
the documented scenario. -/
def workerTagsIntersect (w : Worker) (specs : List String) : Bool :=
  w.roles.any (fun rt => rt.2.any (fun tag => specs.contains tag))

/-- A well-formed but unsatisfiable-part action for the matcher witness: needs
2 Bolts where the inventory has 1, plus the satisfied worker requirement. -/
def actC4 : ActionE :=
  mkAction ("c4") 1 .CONFIRMED 1 [reqWorkerAsm, ⟨.PART, [.str ("Bolt"), .int 2]⟩]
    (some workerAsm)

/-- Inventory with a single Bolt, for the matcher witness. -/
def invC4 : Inventory :=
  ⟨[(("Bolt"), 1)], [], []⟩

/-- An action carrying a malformed requirement (negative quantity), for the
matcher error witness. -/
def actC4bad : ActionE :=
  mkAction ("c4b") 1 .CONFIRMED 1 [⟨.PART, [.str ("Bolt"), .int (-1)]⟩] none

/-- A WorkStation resource with one slot and no current load. -/
def wsR : Resource :=
  ⟨("Assembly Station 1"), .WORKSTATION, [], ("r1"), [("manual_assembly")], 1, 0, .IDLE⟩

/-- An IN_PROGRESS job with an empty allocation table. -/
def jobC7 : Job :=
  ⟨("j7"), none, [], none, none, .IN_PROGRESS, some 0, none, [], []⟩

/-- World for the cancellation witness: the in-progress job and the single
workstation. -/
def worldC7 : World :=
  ⟨jobC7, [wsR]⟩

/-- World whose job is COMPLETED, for the invalid-cancellation witness. -/
def worldC7done : World :=
  ⟨{ jobC7 with status := .COMPLETED, completion_date := some 9 }, [wsR]⟩

/-- A concrete part with stock 50, for the quantity-adjustment witness. -/
def partD : Part :=
  ⟨("Aluminum_Block_6061"), 50, 1/125, .NEW, .RAW_MATERIAL, 15, 10, ("pD")⟩

theorem mem_of_alookup {α : Type} {l : List (String × α)} {i : String} {x : α}
    (h : alookup l i = some x) : (i, x) ∈ l := by
  induction l with
  | nil => simp [alookup] at h
  | cons e rest ih =>
      obtain ⟨k, v⟩ := e
      by_cases hk : k = i
      · subst hk
        simp [alookup] at h
        simp [h]
      · simp only [alookup, if_neg hk] at h
        exact List.mem_cons_of_mem _ (ih h)

theorem mem_aerase {α : Type} {l : List (String × α)} {i : String} {e : String × α}
    (h : e ∈ aerase l i) : e ∈ l := by
  induction l with
  | nil => simp [aerase] at h
  | cons p rest ih =>
      obtain ⟨k, v⟩ := p
      by_cases hk : k = i
      · simp only [aerase, if_pos hk] at h
        exact List.mem_cons_of_mem _ h
      · simp only [aerase, if_neg hk] at h
        rcases List.mem_cons.mp h with h1 | h1
        · exact h1 ▸ List.mem_cons_self _ _
        · exact List.mem_cons_of_mem _ (ih h1)

theorem ledgerVolume_cons (k : String) (x : Item) (l : List (String × Item)) :
    ledgerVolume ((k, x) :: l) = x.volume + ledgerVolume l := by
  simp [ledgerVolume]

theorem ledgerVolume_append (l : List (String × Item)) (k : String) (x : Item) :
    ledgerVolume (l ++ [(k, x)]) = ledgerVolume l + x.volume := by
  simp [ledgerVolume]

theorem ledgerVolume_aerase {l : List (String × Item)} {i : String} {x : Item}
    (h : alookup l i = some x) :
    ledgerVolume (aerase l i) = ledgerVolume l - x.volume := by
  induction l with
  | nil => simp [alookup] at h
  | cons e rest ih =>
      obtain ⟨k, v⟩ := e
      by_cases hk : k = i
      · simp only [alookup, if_pos hk] at h
        obtain rfl : v = x := by exact Option.some.inj h
        simp only [aerase, if_pos hk]
        rw [ledgerVolume_cons]
        ring
      · simp only [alookup, if_neg hk] at h
        simp only [aerase, if_neg hk]
        rw [ledgerVolume_cons, ledgerVolume_cons, ih h]
        ring

theorem add_item_over {s : Storage} {item : Item}
    (h : s.max_capacity < s.current_capacity + item.volume) :
    s.add_item item = .error .CapacityExceeded := by
  simp [Storage.add_item, h]

theorem add_item_ok {s : Storage} {item : Item}
    (h1 : s.current_capacity + item.volume ≤ s.max_capacity)
    (h2 : alookup s.storage item.id = none) :
    s.add_item item = .ok { s with
      storage := s.storage ++ [(item.id, item)],
      current_capacity := s.current_capacity + item.volume } := by
  simp [Storage.add_item, not_lt.mpr h1, h2]

theorem remove_item_ok {s : Storage} {i : String} {x : Item}
    (h : alookup s.storage i = some x) :
    s.remove_item i = .ok (x, { s with
      storage := aerase s.storage i,
      current_capacity := s.current_capacity - x.volume }) := by
  simp [Storage.remove_item, h]

theorem inv_applyOp {s : Storage} {op : StorageOp} (hInv : s.Inv) (hwf : op.wf) :
    (s.applyOp op).Inv := by
  obtain ⟨hc, hm, hv⟩ := hInv
  cases op with
  | add item =>
      by_cases h1 : s.max_capacity < s.current_capacity + item.volume
      · simp only [Storage.applyOp, add_item_over h1]
        exact ⟨hc, hm, hv⟩
      · cases h2 : alookup s.storage item.id with
        | some x =>
            simp only [Storage.applyOp, Storage.add_item, if_neg h1, h2,
              Option.isSome_some, if_pos]
            exact ⟨hc, hm, hv⟩
        | none =>
            simp only [Storage.applyOp, add_item_ok (not_lt.mp h1) h2]
            refine ⟨?_, ?_, ?_⟩
            · rw [ledgerVolume_append, hc]
            · exact not_lt.mp h1
            · intro e he
              rcases List.mem_append.mp he with h3 | h3
              · exact hv e h3
              · simp at h3
                rw [h3]
                exact hwf
  | remove i =>
      cases h2 : alookup s.storage i with
      | none =>
          simp only [Storage.applyOp, Storage.remove_item, h2]
          exact ⟨hc, hm, hv⟩
      | some x =>
          simp only [Storage.applyOp, remove_item_ok h2]
          have hx : (i, x) ∈ s.storage := mem_of_alookup h2
          have hxv : 0 ≤ x.volume := hv _ hx
          refine ⟨?_, ?_, ?_⟩
          · rw [ledgerVolume_aerase h2, hc]
          · show s.current_capacity - x.volume ≤ s.max_capacity
            linarith
          · intro e he
            exact hv e (mem_aerase he)

theorem inv_applyOps {s : Storage} {ops : List StorageOp} (hInv : s.Inv)
    (hops : ∀ op ∈ ops, op.wf) : (s.applyOps ops).Inv := by
  induction ops generalizing s with
  | nil => exact hInv
  | cons op rest ih =>
      have h1 : (s.applyOp op).Inv :=
        inv_applyOp hInv (hops op (List.mem_cons_self _ _))
      exact ih h1 (fun o ho => hops o (List.mem_cons_of_mem _ ho))

/-- Claim C1: for every Storage built by the constructor and every finite
sequence of add_item and remove_item operations (a failed operation leaving
the Storage unchanged), after each operation — that is, after every prefix of
the sequence — the current capacity equals the sum of the volumes of the items
in the ledger and never exceeds the maximum capacity.  Added items carry the
non-negative volume that the validating constructors guarantee. -/
theorem storage_capacity_invariant (nm : String) (geo : List ℚ) (st : StorageType)
    (mc : ℚ) (idv : String) (s0 : Storage)
    (h0 : Storage.make nm geo st mc idv = .ok s0)
    (ops pre suf : List StorageOp) (hops : ∀ op ∈ ops, op.wf)
    (hsplit : ops = pre ++ suf) :
    (s0.applyOps pre).current_capacity = ledgerVolume (s0.applyOps pre).storage ∧
    (s0.applyOps pre).current_capacity ≤ (s0.applyOps pre).max_capacity := by
  have hmc : ¬ mc < 0 := by
    intro hneg
    simp [Storage.make, hneg] at h0
  have hs0 : s0 = ⟨nm, geo, st, mc, idv, [], 0⟩ := by
    simp only [Storage.make, if_neg hmc] at h0
    injection h0 with h
    exact h.symm
  have hInv0 : s0.Inv := by
    rw [hs0]
    refine ⟨by simp [ledgerVolume], by simpa using not_lt.mp hmc, by simp⟩
  have hpre : ∀ op ∈ pre, op.wf := by
    intro op hop
    exact hops op (hsplit ▸ List.mem_append_left _ hop)
  obtain ⟨h1, h2, _⟩ := inv_applyOps hInv0 hpre
  exact ⟨h1, h2⟩

theorem storage_capacity_invariant_witness :
    Storage.make ("Main Warehouse") [] .WAREHOUSE 10 ("sA") = .ok storageA ∧
    (storageA.applyOps [.add itemB, .remove ("pB")]).current_capacity =
      ledgerVolume (storageA.applyOps [.add itemB, .remove ("pB")]).storage ∧
    (storageA.applyOps [.add itemB, .remove ("pB")]).current_capacity ≤
      (storageA.applyOps [.add itemB, .remove ("pB")]).max_capacity := by
  have h0 : Storage.make ("Main Warehouse") [] .WAREHOUSE 10 ("sA") = .ok storageA := by
    simp [Storage.make, storageA]
  have hops : ∀ op ∈ ([.add itemB, .remove ("pB")] : List StorageOp), op.wf := by
    intro op hop
    rcases List.mem_cons.mp hop with rfl | hop
    · show (0 : ℚ) ≤ itemB.volume
      norm_num [itemB, Item.volume]
    · rcases List.mem_cons.mp hop with rfl | hop
      · trivial
      · simp at hop
  exact ⟨h0, storage_capacity_invariant ("Main Warehouse") [] .WAREHOUSE 10 ("sA")
    storageA h0 [.add itemB, .remove ("pB")] [.add itemB, .remove ("pB")] [] hops
    (by simp)⟩

/-- Claim C3: add_item fails with CapacityExceeded exactly when the item's
volume would push the current capacity past the maximum; otherwise (for a
fresh id) it inserts the item and increments the current capacity by exactly
the item's volume attribute.  In particular, on a Storage with max capacity
10.0, one add_item call with a Part of volume 0.5 leaves current capacity 0.5
and available capacity 9.5, irrespective of the Part's quantity. -/
theorem add_item_capacity_spec :
    (∀ (s : Storage) (item : Item),
      s.max_capacity < s.current_capacity + item.volume →
      s.add_item item = .error .CapacityExceeded) ∧
    (∀ (s : Storage) (item : Item),
      s.current_capacity + item.volume ≤ s.max_capacity →
      alookup s.storage item.id = none →
      s.add_item item = .ok { s with
        storage := s.storage ++ [(item.id, item)],
        current_capacity := s.current_capacity + item.volume }) ∧
    (∀ q : Int, ∃ s2 : Storage,
      storageA.add_item (.part (partA q)) = .ok s2 ∧
      s2.current_capacity = 1/2 ∧ s2.available_capacity = 19/2) := by
  refine ⟨fun s item h => add_item_over h, fun s item h1 h2 => add_item_ok h1 h2, ?_⟩
  intro q
  refine ⟨{ storageA with storage := [(("pA"), .part (partA q))], current_capacity := 1/2 }, ?_, ?_, ?_⟩
  · have h1 : storageA.current_capacity + (Item.part (partA q)).volume ≤ storageA.max_capacity := by
      norm_num [storageA, partA, Item.volume]
    have h2 : alookup storageA.storage (Item.part (partA q)).id = none := rfl
    rw [add_item_ok h1 h2]
    norm_num [storageA, partA, Item.volume, Item.id]
  · rfl
  · norm_num [Storage.available_capacity, storageA]

theorem add_item_capacity_spec_witness :
    ({ storageA with current_capacity := 9 } : Storage).max_capacity <
      ({ storageA with current_capacity := 9 } : Storage).current_capacity + itemB.volume ∧
    ({ storageA with current_capacity := 9 } : Storage).add_item itemB =
      .error .CapacityExceeded ∧
    (∃ s2 : Storage, storageA.add_item (.part (partA 100)) = .ok s2 ∧
      s2.current_capacity = 1/2 ∧ s2.available_capacity = 19/2) := by
  have h : ({ storageA with current_capacity := 9 } : Storage).max_capacity <
      ({ storageA with current_capacity := 9 } : Storage).current_capacity + itemB.volume := by
    norm_num [storageA, itemB, Item.volume]
  exact ⟨h, add_item_capacity_spec.1 _ _ h, add_item_capacity_spec.2.2 100⟩

/-- Claim C8: for every Storage and every id not present in its ledger,
remove_item and get_item fail with NotFound, and the failed call leaves the
Storage in its prior state with nothing partially applied. -/
theorem remove_get_item_not_found (s : Storage) (i : String)
    (h : alookup s.storage i = none) :
    s.remove_item i = .error .NotFound ∧ s.get_item i = .error .NotFound ∧
    s.applyOp (.remove i) = s := by
  refine ⟨?_, ?_, ?_⟩
  · simp [Storage.remove_item, h]
  · simp [Storage.get_item, h]
  · simp [Storage.applyOp, Storage.remove_item, h]

theorem remove_get_item_not_found_witness :
    alookup storageC8.storage ("missing") = none ∧
    storageC8.remove_item ("missing") = .error .NotFound ∧
    storageC8.get_item ("missing") = .error .NotFound ∧
    storageC8.applyOp (.remove ("missing")) = storageC8 := by
  have h : alookup storageC8.storage ("missing") = none := rfl
  obtain ⟨h1, h2, h3⟩ := remove_get_item_not_found storageC8 ("missing") h
  exact ⟨h, h1, h2, h3⟩

theorem applyAdjust_nonneg (p : Part) (a : Int) (h : 0 ≤ p.quantity) :
    0 ≤ (p.applyAdjust a).quantity := by
  unfold Part.applyAdjust Part.adjust_quantity
  by_cases hlt : p.quantity + a < 0
  · simp only [if_pos hlt]
    exact h
  · simp only [if_neg hlt]
    omega

theorem applyAdjusts_nonneg (p : Part) (amounts : List Int) (h : 0 ≤ p.quantity) :
    0 ≤ (p.applyAdjusts amounts).quantity := by
  induction amounts generalizing p with
  | nil => exact h
  | cons a rest ih => exact ih (p.applyAdjust a) (applyAdjust_nonneg p a h)

/-- Claim C10: adjust_quantity sets the quantity to quantity + amount when
that is non-negative, and raises ValueError (taxonomy ValidationError) leaving
the quantity unchanged when it would be negative; consequently a Part's
quantity stays non-negative across any sequence of adjust_quantity calls. -/
theorem adjust_quantity_spec :
    (∀ (p : Part) (amount : Int), 0 ≤ p.quantity + amount →
      p.adjust_quantity amount = .ok { p with quantity := p.quantity + amount }) ∧
    (∀ (p : Part) (amount : Int), p.quantity + amount < 0 →
      p.adjust_quantity amount = .error .ValidationError ∧ p.applyAdjust amount = p) ∧
    (∀ (p : Part) (amounts : List Int), 0 ≤ p.quantity →
      0 ≤ (p.applyAdjusts amounts).quantity) := by
  refine ⟨?_, ?_, fun p amounts h => applyAdjusts_nonneg p amounts h⟩
  · intro p amount h
    simp [Part.adjust_quantity, not_lt.mpr h]
  · intro p amount h
    constructor
    · simp [Part.adjust_quantity, h]
    · simp [Part.applyAdjust, Part.adjust_quantity, h]

theorem adjust_quantity_spec_witness :
    (0 : Int) ≤ partD.quantity + (-5) ∧
    partD.adjust_quantity (-5) = .ok { partD with quantity := 45 } ∧
    partD.quantity + (-100) < 0 ∧
    partD.adjust_quantity (-100) = .error .ValidationError ∧
    0 ≤ (partD.applyAdjusts [(-5), 100, (-40)]).quantity := by
  refine ⟨by decide, ?_, by decide, (adjust_quantity_spec.2.1 partD (-100) (by decide)).1,
    adjust_quantity_spec.2.2 partD [(-5), 100, (-40)] (by decide)⟩
  have h := adjust_quantity_spec.1 partD (-5) (by decide)
  simpa [partD] using h

/-- Claim C2 counterexample: on the concrete PLANNED job `jobC2`, whose single
Action (sequence 1, status REQUESTED) is ready, `start_job` succeeds but no
Action is started — afterwards the Action list still carries status REQUESTED
only, contradicting the claim that `start_job` starts the first ready
Action. -/
theorem start_job_effects_counterexample :
    jobC2.get_ready_actions = [mkAction ("a1") 1 .REQUESTED 1 [] none] ∧
    jobC2.start_job 5 = .ok { jobC2 with status := .IN_PROGRESS, start_date := some 5 } ∧
    ({ jobC2 with status := .IN_PROGRESS, start_date := some 5 } : Job).actions.map
      ActionE.status = [.REQUESTED] := by
  refine ⟨?_, ?_, rfl⟩
  · rfl
  · rfl

/-- Claim C2 (amended): start_job succeeds exactly when the Job's status is
PLANNED; on success it sets the status to IN_PROGRESS and records the start
time, changing nothing else — in particular no Action is started, per the
repository's Python Reference page; in any other status it fails with
InvalidTransition and leaves the Job unchanged. -/
theorem start_job_spec (j : Job) (now : Int) :
    (j.status = .PLANNED →
      j.start_job now = .ok { j with status := .IN_PROGRESS, start_date := some now }) ∧
    (j.status ≠ .PLANNED → j.start_job now = .error .InvalidTransition) := by
  constructor
  · intro h
    simp [Job.start_job, h]
  · intro h
    simp [Job.start_job, h]

theorem start_job_spec_witness :
    jobC2.start_job 5 = .ok { jobC2 with status := .IN_PROGRESS, start_date := some 5 } ∧
    jobB.start_job 0 = .error .InvalidTransition :=
  ⟨(start_job_spec jobC2 5).1 rfl, (start_job_spec jobB 0).2 (by decide)⟩

/-- Claim C6: get_progress returns the number of COMPLETED Actions divided by
the total number of Actions, times 100, and 0 for a Job with no Actions; on
the scenario-B job (two Actions of durations 1.0h and 2.0h, the first
COMPLETED) it returns 50. -/
theorem get_progress_spec :
    (∀ j : Job, j.actions = [] → j.get_progress = 0) ∧
    (∀ j : Job, j.actions ≠ [] →
      j.get_progress =
        ((j.actions.filter (fun a => a.status = ActionStatus.COMPLETED)).length : ℚ) /
          (j.actions.length : ℚ) * 100) ∧
    jobB.get_progress = 50 := by
  refine ⟨?_, ?_, ?_⟩
  · intro j h
    simp [Job.get_progress, h]
  · intro j h
    rw [Job.get_progress, if_neg (by simpa [List.length_eq_zero] using h)]
  · have hfilter : jobB.actions.filter (fun a => a.status = ActionStatus.COMPLETED) =
        [mkAction ("b1") 1 .COMPLETED 1 [] none] := rfl
    have hlen : jobB.actions.length = 2 := rfl
    rw [Job.get_progress, hfilter, hlen]
    norm_num

theorem get_progress_spec_witness :
    jobC7.get_progress = 0 ∧
    jobB.get_progress =
      ((jobB.actions.filter (fun a => a.status = ActionStatus.COMPLETED)).length : ℚ) /
        (jobB.actions.length : ℚ) * 100 :=
  ⟨get_progress_spec.1 jobC7 rfl, get_progress_spec.2.1 jobB (by decide)⟩

theorem bumpR_cancel (rid : String) (r : Resource) :
    bumpR (-1) rid (bumpR 1 rid r) = r := by
  unfold bumpR
  by_cases h : r.id = rid
  · rw [if_pos h]
    rw [if_pos (show ({ r with
      current_capacity := r.current_capacity + 1 } : Resource).id = rid from h)]
    show ({ r with current_capacity := r.current_capacity + 1 + -1 } : Resource) = r
    rw [show r.current_capacity + 1 + -1 = r.current_capacity from by ring]
  · rw [if_neg h, if_neg h]

theorem bumpR_comm (d e : Int) (a b : String) (r : Resource) :
    bumpR d a (bumpR e b r) = bumpR e b (bumpR d a r) := by
  unfold bumpR
  by_cases ha : r.id = a <;> by_cases hb : r.id = b
  · rw [if_pos hb, if_pos ha]
    rw [if_pos (show ({ r with
      current_capacity := r.current_capacity + e } : Resource).id = a from ha)]
    rw [if_pos (show ({ r with
      current_capacity := r.current_capacity + d } : Resource).id = b from hb)]
    show ({ r with current_capacity := r.current_capacity + e + d } : Resource) =
      { r with current_capacity := r.current_capacity + d + e }
    rw [add_right_comm]
  · rw [if_neg hb, if_pos ha]
    rw [if_neg (show ¬ ({ r with
      current_capacity := r.current_capacity + d } : Resource).id = b from hb)]
  · rw [if_pos hb, if_neg ha]
    rw [if_neg (show ¬ ({ r with
      current_capacity := r.current_capacity + e } : Resource).id = a from ha)]
    rw [if_pos hb]
  · rw [if_neg hb, if_neg ha, if_neg hb]

theorem bumpLoad_cancel (rid : String) (rs : List Resource) :
    bumpLoad (-1) rid (bumpLoad 1 rid rs) = rs := by
  unfold bumpLoad
  rw [List.map_map]
  have hcomp : (bumpR (-1) rid ∘ bumpR 1 rid) = id :=
    funext (fun r => bumpR_cancel rid r)
  rw [hcomp, List.map_id]

theorem bumpLoad_comm (d e : Int) (a b : String) (rs : List Resource) :
    bumpLoad d a (bumpLoad e b rs) = bumpLoad e b (bumpLoad d a rs) := by
  unfold bumpLoad
  rw [List.map_map, List.map_map]
  have hcomp : (bumpR d a ∘ bumpR e b) = (bumpR e b ∘ bumpR d a) :=
    funext (fun r => bumpR_comm d e a b r)
  rw [hcomp]

theorem releaseAll_cons (e : String × String) (t : List (String × String))
    (rs : List Resource) :
    releaseAll (e :: t) rs = releaseAll t (bumpLoad (-1) e.2 rs) := rfl

theorem bump_releaseAll_comm (d : Int) (rid : String) (t : List (String × String))
    (rs : List Resource) :
    bumpLoad d rid (releaseAll t rs) = releaseAll t (bumpLoad d rid rs) := by
  induction t generalizing rs with
  | nil => rfl
  | cons e rest ih =>
      rw [releaseAll_cons, releaseAll_cons, ih, bumpLoad_comm]

theorem allocate_resource_ok {w w2 : World} {a rid : String}
    (h : w.allocate_resource a rid = .ok w2) :
    w2.resources = bumpLoad 1 rid w.resources ∧
    w2.job.allocated_resources = w.job.allocated_resources ++ [(a, rid)] ∧
    w2.job.status = w.job.status := by
  unfold World.allocate_resource at h
  split at h
  · simp at h
  · split at h
    · simp at h
    · split at h
      · simp at h
      · injection h with h3
        rw [← h3]
        exact ⟨rfl, rfl, rfl⟩

theorem allocAll_release {ps : List (String × String)} {w w2 : World}
    (h : World.allocAll w ps = some w2) :
    releaseAll ps w2.resources = w.resources ∧
    w2.job.allocated_resources = w.job.allocated_resources ++ ps ∧
    w2.job.status = w.job.status := by
  induction ps generalizing w with
  | nil =>
      simp only [World.allocAll, Option.some.injEq] at h
      subst h
      exact ⟨rfl, by simp, rfl⟩
  | cons e rest ih =>
      obtain ⟨a, rid⟩ := e
      unfold World.allocAll at h
      cases halloc : w.allocate_resource a rid with
      | error err =>
          rw [halloc] at h
          simp at h
      | ok w1 =>
          rw [halloc] at h
          obtain ⟨hres, htbl, hst⟩ := allocate_resource_ok halloc
          obtain ⟨ih1, ih2, ih3⟩ := ih h
          refine ⟨?_, ?_, ?_⟩
          · rw [releaseAll_cons, ← bump_releaseAll_comm, ih1, hres]
            exact bumpLoad_cancel rid w.resources
          · rw [ih2, htbl, List.append_assoc, List.singleton_append]
          · rw [ih3, hst]

/-- Claim C7: cancel_job on a COMPLETED Job fails with InvalidTransition; on
an IN_PROGRESS Job it succeeds and returns every Resource allocation recorded
in the Job's allocation table by allocate_resource to its pre-allocation load:
if the Job's allocations were built up by any run of successful
allocate_resource calls from an empty table, cancelling restores the resource
pool exactly to its state before those calls. -/
theorem cancel_job_spec :
    (∀ w : World, w.job.status = .COMPLETED → w.cancel_job = .error .InvalidTransition) ∧
    (∀ (w0 w : World) (ps : List (String × String)),
      w0.job.allocated_resources = [] → World.allocAll w0 ps = some w →
      w.job.status = .IN_PROGRESS →
      ∃ w2, w.cancel_job = .ok w2 ∧ w2.job.status = .CANCELLED ∧
        w2.resources = w0.resources) := by
  constructor
  · intro w h
    simp [World.cancel_job, h]
  · intro w0 w ps h0 hall hst
    obtain ⟨h1, h2, _⟩ := allocAll_release hall
    refine ⟨World.mk { w.job with status := .CANCELLED, allocated_resources := [] }
      (releaseAll w.job.allocated_resources w.resources), ?_, rfl, ?_⟩
    · simp [World.cancel_job, hst]
    · show releaseAll w.job.allocated_resources w.resources = w0.resources
      rw [h2, h0, List.nil_append, h1]

theorem cancel_job_spec_witness :
    worldC7done.cancel_job = .error .InvalidTransition ∧
    World.allocAll worldC7 [(("a1"), ("r1"))] =
      some (World.mk { jobC7 with allocated_resources := [(("a1"), ("r1"))] }
        [{ wsR with current_capacity := 1 }]) ∧
    (∃ w2, (World.mk { jobC7 with allocated_resources := [(("a1"), ("r1"))] }
        [{ wsR with current_capacity := 1 }]).cancel_job =
        .ok w2 ∧ w2.job.status = .CANCELLED ∧ w2.resources = worldC7.resources) := by
  have hall : World.allocAll worldC7 [(("a1"), ("r1"))] =
      some (World.mk { jobC7 with allocated_resources := [(("a1"), ("r1"))] }
        [{ wsR with current_capacity := 1 }]) := rfl
  exact ⟨cancel_job_spec.1 worldC7done rfl, hall,
    cancel_job_spec.2 worldC7 _ [(("a1"), ("r1"))] rfl hall rfl⟩

theorem checkRequirement_wf {a : ActionE} {inv : Inventory} {req : Requirement}
    (h : req.wellFormed = true) :
    checkRequirement a inv req =
      .ok (if req.satisfiedAt a inv then none else some req.description) := by
  simp [checkRequirement, h]

theorem checkRequirement_malformed {a : ActionE} {inv : Inventory} {req : Requirement}
    (h : req.wellFormed = false) :
    checkRequirement a inv req = .error .ValidationError := by
  simp [checkRequirement, h]

theorem collectMissing_wf {a : ActionE} {inv : Inventory} {reqs : List Requirement}
    (h : ∀ req ∈ reqs, req.wellFormed = true) :
    collectMissing a inv reqs =
      .ok ((reqs.filter (fun r => ! r.satisfiedAt a inv)).map Requirement.description) := by
  induction reqs with
  | nil => rfl
  | cons req rest ih =>
      have h1 := h req (List.mem_cons_self _ _)
      have h2 := ih (fun r hr => h r (List.mem_cons_of_mem _ hr))
      simp only [collectMissing, checkRequirement_wf h1, h2]
      by_cases hsat : req.satisfiedAt a inv = true
      · simp [hsat, List.filter_cons]
      · simp only [Bool.not_eq_true] at hsat
        simp [hsat, List.filter_cons]

theorem collectMissing_malformed {a : ActionE} {inv : Inventory} {reqs : List Requirement}
    (h : ∃ req ∈ reqs, req.wellFormed = false) :
    collectMissing a inv reqs = .error .ValidationError := by
  induction reqs with
  | nil => simp at h
  | cons req rest ih =>
      obtain ⟨r0, hr0, hwf0⟩ := h
      rcases List.mem_cons.mp hr0 with rfl | hmem
      · simp only [collectMissing, checkRequirement_malformed hwf0]
      · cases hhead : req.wellFormed
        · simp only [collectMissing, checkRequirement_malformed hhead]
        · simp only [collectMissing, checkRequirement_wf hhead, ih ⟨r0, hmem, hwf0⟩]

/-- Claim C4: check_requirements_satisfied evaluates every Requirement
independently and returns a pair (satisfied, missing) in which missing lists
the description of every unsatisfied Requirement (so no short-circuit) and
satisfied is true exactly when missing is empty; it raises only for malformed
Requirements (a PART requirement with a negative quantity or a specs list of
the wrong shape — unknown kinds cannot arise in the enumeration) and never
raises merely because a requirement is unsatisfied. -/
theorem check_requirements_spec :
    (∀ (a : ActionE) (inv : Inventory),
      (∀ req ∈ a.requirements, req.wellFormed = true) →
      a.check_requirements_satisfied inv =
        .ok (((a.requirements.filter (fun r => ! r.satisfiedAt a inv)).map
            Requirement.description).isEmpty,
          (a.requirements.filter (fun r => ! r.satisfiedAt a inv)).map
            Requirement.description)) ∧
    (∀ (a : ActionE) (inv : Inventory),
      (∃ req ∈ a.requirements, req.wellFormed = false) →
      a.check_requirements_satisfied inv = .error .ValidationError) := by
  constructor
  · intro a inv h
    simp only [ActionE.check_requirements_satisfied, collectMissing_wf h]
  · intro a inv h
    simp only [ActionE.check_requirements_satisfied, collectMissing_malformed h]

theorem check_requirements_spec_witness :
    (∀ req ∈ actC4.requirements, req.wellFormed = true) ∧
    actC4.check_requirements_satisfied invC4 = .ok (false, [("Part: Bolt, 2")]) ∧
    (∃ req ∈ actC4bad.requirements, req.wellFormed = false) ∧
    actC4bad.check_requirements_satisfied invEmpty = .error .ValidationError := by
  have hwf : ∀ req ∈ actC4.requirements, req.wellFormed = true := by decide
  have hbad : ∃ req ∈ actC4bad.requirements, req.wellFormed = false := by decide
  refine ⟨hwf, ?_, hbad, check_requirements_spec.2 actC4bad invEmpty hbad⟩
  rw [check_requirements_spec.1 actC4 invC4 hwf]
  rfl

/-- Claim C5 counterexample: on the concrete action requiring
Requirement(WORKER, ["Assembler"]) with the worker whose single role is named
"Assembler" (and has no authorized tags), the requirement is satisfied — the
matcher returns (true, []) — even though no role's authorized tags intersect
the specs and the specs are not empty, refuting the claim's "exactly when a
role's authorized tags intersect the specs". -/
theorem worker_requirement_counterexample :
    (actC5 workerAsm).worker = some workerAsm ∧
    reqWorkerAsm.specs ≠ [] ∧
    workerTagsIntersect workerAsm (specStrings reqWorkerAsm.specs) = false ∧
    (actC5 workerAsm).check_requirements_satisfied invEmpty = .ok (true, []) :=
  ⟨rfl, by decide, rfl, rfl⟩

/-- Claim C5 (amended): a WORKER requirement is satisfied exactly when a
worker is assigned and either the specs list is empty or the worker's
role-capability mapping contains a role that matches the specs — its name is
one of the specs or its authorized tags intersect them; concretely, for
Requirement(WORKER, ["Assembler"]), an assigned Worker with role "Assembler"
yields (true, []) while an assigned Worker whose only role is "Inspector"
yields (false, ["Worker: Assembler"]). -/
theorem worker_requirement_spec :
    (∀ (a : ActionE) (inv : Inventory) (req : Requirement),
      req.req_type = .WORKER →
      (req.satisfiedAt a inv = true ↔
        ∃ w, a.worker = some w ∧
          (req.specs = [] ∨ w.roleMatches (specStrings req.specs) = true))) ∧
    (actC5 workerAsm).check_requirements_satisfied invEmpty = .ok (true, []) ∧
    (actC5 workerInsp).check_requirements_satisfied invEmpty =
      .ok (false, [("Worker: Assembler")]) := by
  refine ⟨?_, rfl, rfl⟩
  intro a inv req hreq
  rcases req with ⟨t, specs⟩
  obtain rfl : t = .WORKER := hreq
  cases hw : a.worker with
  | none =>
      simp [Requirement.satisfiedAt, RequirementType.resourceVariant, hw]
  | some w =>
      simp [Requirement.satisfiedAt, RequirementType.resourceVariant, hw,
        List.isEmpty_iff]

theorem worker_requirement_spec_witness :
    reqWorkerAsm.satisfiedAt (actC5 workerAsm) invEmpty = true ∧
    (∃ w, (actC5 workerAsm).worker = some w ∧
      (reqWorkerAsm.specs = [] ∨ w.roleMatches (specStrings reqWorkerAsm.specs) = true)) :=
  ⟨rfl, (worker_requirement_spec.1 (actC5 workerAsm) invEmpty reqWorkerAsm rfl).mp rfl⟩

theorem decodeList_map {α : Type} (f : DValue → Option α) (g : α → DValue)
    (h : ∀ x, f (g x) = some x) (l : List α) :
    decodeList f (l.map g) = some l := by
  induction l with
  | nil => rfl
  | cons x xs ih => simp [decodeList, h, ih]

theorem decodeEntries_map {α : Type} (f : DValue → Option α) (g : α → DValue)
    (h : ∀ x, f (g x) = some x) (l : List (String × α)) :
    decodeEntries f (l.map (fun e => (e.1, g e.2))) = some l := by
  induction l with
  | nil => rfl
  | cons e rest ih =>
      obtain ⟨k, v⟩ := e
      simp [decodeEntries, h, ih]

theorem decodeOpt_optDict {α : Type} (f : List (String × DValue) → Option α)
    (g : α → List (String × DValue)) (h : ∀ x, f (g x) = some x) (o : Option α) :
    decodeOpt f (optDict (o.map g)) = some o := by
  cases o with
  | none => rfl
  | some x => simp [optDict, decodeOpt, h]

theorem asOptStr_optStrV (o : Option String) : (optStrV o).asOptStr = some o := by
  cases o <;> rfl

theorem asOptInt_optIntV (o : Option Int) : (optIntV o).asOptInt = some o := by
  cases o <;> rfl

theorem asOptPriority_optPriorityV (o : Option JobPriority) :
    (optPriorityV o).asOptPriority = some o := by
  cases o with
  | none => rfl
  | some p => cases p <;> rfl

theorem storageType_roundtrip (x : StorageType) : StorageType.ofStr x.toStr = some x := by
  cases x <;> rfl

theorem locationType_roundtrip (x : LocationType) : LocationType.ofStr x.toStr = some x := by
  cases x <;> rfl

theorem productionState_roundtrip (x : ProductionState) :
    ProductionState.ofStr x.toStr = some x := by
  cases x <;> rfl

theorem partType_roundtrip (x : PartType) : PartType.ofStr x.toStr = some x := by
  cases x <;> rfl

theorem resourceType_roundtrip (x : ResourceType) : ResourceType.ofStr x.toStr = some x := by
  cases x <;> rfl

theorem resourceStatus_roundtrip (x : ResourceStatus) :
    ResourceStatus.ofStr x.toStr = some x := by
  cases x <;> rfl

theorem actionStatus_roundtrip (x : ActionStatus) : ActionStatus.ofStr x.toStr = some x := by
  cases x <;> rfl

theorem jobStatus_roundtrip (x : JobStatus) : JobStatus.ofStr x.toStr = some x := by
  cases x <;> rfl

theorem jobPriority_roundtrip (x : JobPriority) : JobPriority.ofStr x.toStr = some x := by
  cases x <;> rfl

theorem actionType_roundtrip (x : ActionType) : ActionType.ofStr x.toStr = some x := by
  cases x <;> rfl

theorem requirementType_roundtrip (x : RequirementType) :
    RequirementType.ofStr x.toStr = some x := by
  cases x <;> rfl

theorem specVal_roundtrip (x : SpecVal) : SpecVal.ofV x.toV = some x := by
  cases x <;> rfl

theorem actor_roundtrip (a : Actor) : Actor.from_dict a.to_dict = some a := by
  rcases a with ⟨name, id, locations⟩
  simp [Actor.to_dict, Actor.from_dict,
    decodeList_map DValue.asStr DValue.str (fun s => rfl) locations]

theorem worker_roundtrip (w : Worker) : Worker.from_dict w.to_dict = some w := by
  rcases w with ⟨name, id, roles, locations⟩
  simp [Worker.to_dict, Worker.from_dict,
    decodeEntries_map (fun v => (v.asList).bind (decodeList DValue.asStr))
      (fun tags => DValue.list (tags.map DValue.str))
      (fun tags => decodeList_map DValue.asStr DValue.str (fun s => rfl) tags) roles,
    decodeList_map DValue.asStr DValue.str (fun s => rfl) locations]

theorem location_roundtrip (l : Location) : Location.from_dict l.to_dict = some l := by
  rcases l with ⟨name, geo, lt, id⟩
  simp [Location.to_dict, Location.from_dict,
    decodeList_map DValue.asRat DValue.rat (fun q => rfl) geo,
    locationType_roundtrip]

theorem part_roundtrip (p : Part) : Part.from_dict p.to_dict = some p := by
  rcases p with ⟨name, quantity, volume, state, part_type, cost, msl, id⟩
  simp [Part.to_dict, Part.from_dict, productionState_roundtrip, partType_roundtrip]

theorem product_roundtrip (p : Product) : Product.from_dict p.to_dict = some p := by
  rcases p with ⟨name, volume, ps, customer, due_date, id, parts⟩
  simp [Product.to_dict, Product.from_dict, productionState_roundtrip,
    asOptStr_optStrV, asOptInt_optIntV,
    decodeEntries_map DValue.asInt DValue.int (fun n => rfl) parts]

theorem item_roundtrip (it : Item) : Item.ofV it.toV = some it := by
  cases it with
  | part p => simp [Item.toV, Item.ofV, part_roundtrip]
  | product p => simp [Item.toV, Item.ofV, product_roundtrip]

theorem storage_roundtrip (s : Storage) : Storage.from_dict s.to_dict = some s := by
  rcases s with ⟨name, geo, st, mc, id, ledger, cc⟩
  simp [Storage.to_dict, Storage.from_dict, storageType_roundtrip,
    decodeList_map DValue.asRat DValue.rat (fun q => rfl) geo,
    decodeEntries_map Item.ofV Item.toV item_roundtrip ledger]

theorem resource_roundtrip (r : Resource) : Resource.from_dict r.to_dict = some r := by
  rcases r with ⟨name, rt, geo, id, caps, mc, cc, st⟩
  simp [Resource.to_dict, Resource.from_dict, resourceType_roundtrip,
    resourceStatus_roundtrip,
    decodeList_map DValue.asRat DValue.rat (fun q => rfl) geo,
    decodeList_map DValue.asStr DValue.str (fun s => rfl) caps]

theorem requirement_roundtrip (req : Requirement) : Requirement.ofV req.toV = some req := by
  rcases req with ⟨t, specs⟩
  simp [Requirement.toV, Requirement.ofV, requirementType_roundtrip,
    decodeList_map SpecVal.ofV SpecVal.toV specVal_roundtrip specs]

theorem actionE_roundtrip (a : ActionE) : ActionE.from_dict a.to_dict = some a := by
  rcases a with ⟨name, at0, desc, dur, job, st, reqs, id, seq, w, r, prog⟩
  simp only [ActionE.to_dict, ActionE.from_dict, actionType_roundtrip,
    actionStatus_roundtrip, asOptStr_optStrV,
    decodeList_map Requirement.ofV Requirement.toV requirement_roundtrip,
    decodeOpt_optDict Worker.from_dict Worker.to_dict worker_roundtrip,
    decodeOpt_optDict Resource.from_dict Resource.to_dict resource_roundtrip]
  rfl

theorem job_roundtrip (j : Job) : Job.from_dict j.to_dict = some j := by
  rcases j with ⟨id, customer, products, due_date, priority, st, sd, cd, alloc, actions⟩
  simp only [Job.to_dict, Job.from_dict, jobStatus_roundtrip, asOptStr_optStrV,
    asOptInt_optIntV, asOptPriority_optPriorityV,
    decodeList_map (fun v => (v.asDict).bind Product.from_dict)
      (fun p => DValue.dict p.to_dict) product_roundtrip,
    decodeEntries_map DValue.asStr DValue.str (fun s => rfl),
    decodeList_map (fun v => (v.asDict).bind ActionE.from_dict)
      (fun a => DValue.dict a.to_dict) actionE_roundtrip]
  rfl

/-- Claim C9: for every entity kind of the model — Actor, Worker, Location,
Storage, Resource (one record polymorphic over the variant tag), Part,
Product, Action, Job — serializing with to_dict and reconstructing from the
resulting mapping yields the original entity: reconstruction succeeds and
every modelled (invariant-relevant) field is preserved exactly. -/
theorem to_dict_roundtrip :
    (∀ a : Actor, Actor.from_dict a.to_dict = some a) ∧
    (∀ w : Worker, Worker.from_dict w.to_dict = some w) ∧
    (∀ l : Location, Location.from_dict l.to_dict = some l) ∧
    (∀ s : Storage, Storage.from_dict s.to_dict = some s) ∧
    (∀ r : Resource, Resource.from_dict r.to_dict = some r) ∧
    (∀ p : Part, Part.from_dict p.to_dict = some p) ∧
    (∀ p : Product, Product.from_dict p.to_dict = some p) ∧
    (∀ a : ActionE, ActionE.from_dict a.to_dict = some a) ∧
    (∀ j : Job, Job.from_dict j.to_dict = some j) :=
  ⟨actor_roundtrip, worker_roundtrip, location_roundtrip, storage_roundtrip,
    resource_roundtrip, part_roundtrip, product_roundtrip, actionE_roundtrip,
    job_roundtrip⟩

end OMM
